import Mathlib

/-!
Shallow embedding of `src/services/micro_service.rs` of the
rust_web_server_demo repository: a minimal message-board microservice.

Modelling boundary: the `url::form_urlencoded` library decodes byte
buffers into key/value string pairs; we take that decoded output — a
`List (String × String)` — as the input of `parse_form` and
`parse_query`.  Collecting such pairs into a Rust `HashMap` keeps, for
each key, the value of the LAST pair inserted (`hashGet` below).
Rust machine integers `i64` are embedded as `Int` with the explicit
i64 bounds where the Rust code checks them (`parseI64`).
`hyper::Error` values are embedded by their `description()` string,
which is the only part of them the code observes.
-/

/-- Modelled from the spec: the persisted `Message` entity of
`src/services/data_source/models.rs` (file absent from src/): `username`
(text), `timestamp` (integer, server-assigned at insert), `message` (text). -/
structure Message where
  username : String
  timestamp : Int
  message : String
deriving DecidableEq, Repr

/-- Modelled from the spec: the `NewMessage` insert record of
`src/services/data_source/models.rs` (file absent from src/):
`username` and `message` text fields. -/
structure NewMessage where
  username : String
  message : String
deriving DecidableEq, Repr

/-- `TimeRange` of micro_service.rs: optional strict bounds. -/
structure TimeRange where
  before : Option Int
  after : Option Int
deriving DecidableEq, Repr

/-- HTTP methods as far as the router distinguishes them. -/
inductive Method where
  | get
  | post
  | other
deriving DecidableEq, Repr

/-- An inbound hyper request, after the body has been read and the body /
query string have been form-url-decoded into key/value pairs.
`query = none` models `request.query()` returning `None`. -/
structure Request where
  method : Method
  path : String
  query : Option (List (String × String))
  body : List (String × String)
deriving DecidableEq, Repr

/-- A hyper `Response`.  `Response::new()` defaults to status 200 with no
headers and an empty body; `with_status`, `with_header` and `with_body`
set the respective fields. -/
structure Response where
  status : Nat := 200
  contentLength : Option Nat := none
  contentType : Option String := none
  body : String := ""
deriving DecidableEq, Repr

/-- Modelled from the spec: the backing single-table datastore behind a
`PgConnection` (schema file absent from src/).  `rows` is the table
content, `nextTs` the timestamp the storage sequence assigns to the next
insert (server-assigned, monotonic), and `readOk`/`writeOk` model whether
the underlying diesel `load`/`insert` calls succeed. -/
structure PgConnection where
  rows : List Message
  nextTs : Int
  readOk : Bool
  writeOk : Bool
deriving DecidableEq, Repr

/-- `connect_to_db` of micro_service.rs: acquisition of the storage
connection, which either yields a connection or fails (`None`).  The
environment supplies the outcome; the function merely passes it on. -/
def connect_to_db (world : Option PgConnection) : Option PgConnection :=
  world

/-- Lookup in the `HashMap` obtained by `.collect()` on decoded pairs:
the value of the last pair with the given key, if any. -/
def hashGet (pairs : List (String × String)) (key : String) : Option String :=
  (pairs.reverse.find? (fun kv => kv.1 == key)).map (fun kv => kv.2)

/-- Decimal digit value of a character, as Rust
`char::to_digit(10)`: `none` on a non-digit. -/
def digitVal (c : Char) : Option Nat :=
  if '0' ≤ c ∧ c ≤ '9' then some (c.toNat - '0'.toNat) else none

/-- Largest `i64` value. -/
def i64Max : Int := 9223372036854775807

/-- Smallest `i64` value. -/
def i64Min : Int := -9223372036854775808

/-- Digit-accumulation loop of Rust `i64::from_str` for a non-negative
number: each step converts the character, then performs checked
multiply and checked add against the i64 upper bound. -/
def parsePosDigits : List Char → Int → Except String Int
  | [], acc => Except.ok acc
  | c :: rest, acc =>
    match digitVal c with
    | none => Except.error "invalid digit found in string"
    | some d =>
      if acc * 10 > i64Max then Except.error "number too large to fit in target type"
      else if acc * 10 + d > i64Max then Except.error "number too large to fit in target type"
      else parsePosDigits rest (acc * 10 + d)

/-- Digit-accumulation loop of Rust `i64::from_str` for a negative
number: checked multiply and checked subtract against the i64 lower
bound. -/
def parseNegDigits : List Char → Int → Except String Int
  | [], acc => Except.ok acc
  | c :: rest, acc =>
    match digitVal c with
    | none => Except.error "invalid digit found in string"
    | some d =>
      if acc * 10 < i64Min then Except.error "number too small to fit in target type"
      else if acc * 10 - d < i64Min then Except.error "number too small to fit in target type"
      else parseNegDigits rest (acc * 10 - d)

/-- Rust `str::parse::<i64>()`: empty input is an error, an optional
leading sign must be followed by at least one digit, and the digit loop
reports invalid digits and overflow.  Errors carry the
`ParseIntError` description string that `Display` produces. -/
def parseI64 (s : String) : Except String Int :=
  match s.data with
  | [] => Except.error "cannot parse integer from empty string"
  | c :: rest =>
    if c = '+' then
      if rest = [] then Except.error "invalid digit found in string"
      else parsePosDigits rest 0
    else if c = '-' then
      if rest = [] then Except.error "invalid digit found in string"
      else parseNegDigits rest 0
    else parsePosDigits (c :: rest) 0

/-- `parse_form` of micro_service.rs: require key `message`; default the
absent `username` to `"anonymous"`; a missing `message` is the error
whose description is `"Missing field message"`. -/
def parse_form (form : List (String × String)) : Except String NewMessage :=
  match hashGet form "message" with
  | some message =>
    Except.ok { username := (hashGet form "username").getD "anonymous", message := message }
  | none => Except.error "Missing field message"

/-- Rust `Result::unwrap` on the parse results inside `parse_query`,
made total: the error branch — a panic in Rust — is given the junk
value 0 and is proved unreachable (claim C10). -/
def exceptUnwrap (r : Except String Int) : Int :=
  match r with
  | Except.ok v => v
  | Except.error _ => 0

/-- `parse_query` of micro_service.rs: map the `before` and `after`
values through `i64` parsing; a present failing parse returns early with
a formatted error message (note the source formats the before-message
with an unmatched quote); otherwise both parse results are unwrapped
into a `TimeRange`. -/
def parse_query (args : List (String × String)) : Except String TimeRange :=
  let before := (hashGet args "before").map parseI64
  match before with
  | some (Except.error e) => Except.error ("Error parsing \x27before: " ++ e)
  | _ =>
    let after := (hashGet args "after").map parseI64
    match after with
    | some (Except.error e) => Except.error ("Error parsing \x27after\x27: " ++ e)
    | _ =>
      Except.ok { before := before.map exceptUnwrap, after := after.map exceptUnwrap }

/-- `query_db` of micro_service.rs: the four diesel filter cases —
strict `lt` on `before`, strict `gt` on `after`, both, or a full load —
over the table rows; a failing load yields `none`. -/
def query_db (time_range : TimeRange) (db_connection : PgConnection) :
    Option (List Message) :=
  let query_result : Except String (List Message) :=
    if db_connection.readOk then
      Except.ok
        (match time_range.before, time_range.after with
        | some b, some a =>
          (db_connection.rows.filter (fun m => decide (m.timestamp < b))).filter
            (fun m => decide (a < m.timestamp))
        | some b, none => db_connection.rows.filter (fun m => decide (m.timestamp < b))
        | none, some a => db_connection.rows.filter (fun m => decide (a < m.timestamp))
        | none, none => db_connection.rows)
    else Except.error "db error"
  match query_result with
  | Except.ok result => some result
  | Except.error _ => none

/-- `write_to_db` of micro_service.rs: insert the record, returning the
storage-assigned timestamp; a failing insert is the error whose
description is `"service error"`.  The appended row carrying `nextTs`
and the sequence bump are modelled from the spec (schema file absent
from src/): timestamp server-assigned at insert, monotonic. -/
def write_to_db (new_message : NewMessage) (db_connection : PgConnection) :
    Except String (Int × PgConnection) :=
  if db_connection.writeOk then
    Except.ok (db_connection.nextTs,
      { db_connection with
        rows := db_connection.rows ++
          [{ username := new_message.username,
             timestamp := db_connection.nextTs,
             message := new_message.message }],
        nextTs := db_connection.nextTs + 1 })
  else Except.error "service error"

/-- Escaping of a single character by maud: `&`, `<`, `>` and `"` become
entities, everything else passes through. -/
def escapeHtmlChar (c : Char) : String :=
  if c = '&' then "&amp;"
  else if c = '<' then "&lt;"
  else if c = '>' then "&gt;"
  else if c = '"' then "&quot;"
  else String.singleton c

/-- maud escaping of a string, character by character. -/
def escapeChars : List Char → String
  | [] => ""
  | c :: rest => escapeHtmlChar c ++ escapeChars rest

/-- maud escaping applied to a whole string. -/
def escapeHtml (s : String) : String :=
  escapeChars s.data

/-- `render_html` of micro_service.rs: the maud `html!` template pushes
the static markup and the escaped splices into one buffer in document
order — head with title and charset meta, then a body holding a `ul`
with one `li` per message; every splice (username, timestamp display
output, message) is escaped. -/
def render_html (messages : List Message) : String :=
  let buf := "<head>" ++ "<title>" ++ "microservice" ++ "</title>" ++
    "<meta charset=\"utf-8\">" ++ "</head>" ++ "<body>" ++ "<ul>"
  let buf := messages.foldl
    (fun buf m =>
      buf ++ "<li>" ++ escapeHtml m.username ++ " (" ++
        escapeHtml (toString m.timestamp) ++ "): " ++ escapeHtml m.message ++ "</li>")
    buf
  buf ++ "</ul>" ++ "</body>"

/-- JSON string escaping as serde_json performs it when serialising a
string value. -/
def jsonEscapeChar (c : Char) : String :=
  if c = '"' then "\\\""
  else if c = '\\' then "\\\\"
  else if c = '\x08' then "\\b"
  else if c = '\x0c' then "\\f"
  else if c = '\n' then "\\n"
  else if c = '\r' then "\\r"
  else if c = '\t' then "\\t"
  else if c.toNat < 32 then
    "\\u00" ++ String.singleton ("0123456789abcdef".data.getD (c.toNat / 16) '0') ++
      String.singleton ("0123456789abcdef".data.getD (c.toNat % 16) '0')
  else String.singleton c

/-- serde_json serialisation of a string value, quotes included. -/
def jsonEscapeString (s : String) : String :=
  "\"" ++ escapeJsonChars s.data ++ "\""
where
  escapeJsonChars : List Char → String
    | [] => ""
    | c :: rest => jsonEscapeChar c ++ escapeJsonChars rest

/-- `make_error_response` of micro_service.rs: status 500, a JSON body
carrying the error message, content-length set to the byte length of
the payload and content-type `application/json`. -/
def make_error_response (error_message : String) : Response :=
  let payload := "\x7b\"error\":" ++ jsonEscapeString error_message ++ "\x7d"
  { status := 500,
    contentLength := some payload.utf8ByteSize,
    contentType := some "application/json",
    body := payload }

/-- `make_post_response` of micro_service.rs: on success a 200 response
with the JSON timestamp payload, content-length and JSON content-type;
on failure the error response built from the error description. -/
def make_post_response (result : Except String Int) : Response :=
  match result with
  | Except.ok timestamp =>
    let payload := "\x7b\"timestamp\":" ++ toString timestamp ++ "\x7d"
    { status := 200,
      contentLength := some payload.utf8ByteSize,
      contentType := some "application/json",
      body := payload }
  | Except.error e => make_error_response e

/-- `make_get_response` of micro_service.rs: on a successful query a
response carrying the rendered HTML with a content-length header (and
no other header); on a failed query a bare 500 response. -/
def make_get_response (messages : Option (List Message)) : Response :=
  match messages with
  | some messages =>
    let body := render_html messages
    { status := 200,
      contentLength := some body.utf8ByteSize,
      body := body }
  | none => { status := 500 }

/-- `MicroService::call` of micro_service.rs: connect to the store
(failure short-circuits to a bare 500); dispatch `POST /` through
`parse_form`, `write_to_db` and `make_post_response`; dispatch `GET /`
through `parse_query` (an absent query string means an unbounded
`TimeRange`), `query_db` and `make_get_response` or
`make_error_response`; anything else is a bare 404.  The second
component is the resulting state of the store. -/
def MicroService.call (request : Request) (world : Option PgConnection) :
    Response × Option PgConnection :=
  match connect_to_db world with
  | none => ({ status := 500 }, world)
  | some db_connection =>
    if request.method = Method.post ∧ request.path = "/" then
      match parse_form request.body with
      | Except.ok new_message =>
        match write_to_db new_message db_connection with
        | Except.ok (timestamp, db2) => (make_post_response (Except.ok timestamp), some db2)
        | Except.error e => (make_post_response (Except.error e), some db_connection)
      | Except.error e => (make_post_response (Except.error e), some db_connection)
    else if request.method = Method.get ∧ request.path = "/" then
      let time_range := match request.query with
        | some query => parse_query query
        | none => Except.ok { before := none, after := none }
      match time_range with
      | Except.ok time_range =>
        (make_get_response (query_db time_range db_connection), some db_connection)
      | Except.error error => (make_error_response error, some db_connection)
    else ({ status := 404 }, some db_connection)

/-- Concrete sample rows for witnesses. -/
def msgA : Message := { username := "alice", timestamp := 1, message := "hello" }

/-- Concrete sample row. -/
def msgB : Message := { username := "bob", timestamp := 2, message := "hi" }

/-- Concrete sample row. -/
def msgC : Message := { username := "carol", timestamp := 3, message := "hey" }

/-- Concrete healthy store for witnesses. -/
def db0 : PgConnection := { rows := [msgA, msgB, msgC], nextTs := 4, readOk := true, writeOk := true }

/-- One rendered list item in the format the template produces: escaped
username, a space-parenthesised timestamp display output, a colon, the
escaped message text. -/
def messageItem (m : Message) : String :=
  "<li>" ++ escapeHtml m.username ++ " (" ++ escapeHtml (toString m.timestamp) ++ "): " ++
    escapeHtml m.message ++ "</li>"

/-- Concatenation of the rendered items of a message list, one item per
message. -/
def itemsHtml : List Message → String
  | [] => ""
  | m :: rest => messageItem m ++ itemsHtml rest

/-- Byte-level view of string append. -/
theorem data_append_eq (s t : String) : (s ++ t).data = s.data ++ t.data := by
  cases s
  cases t
  rfl

/-- C1: with a live read, `query_db` returns exactly the stored messages
satisfying the strict bounds of the `TimeRange`: `timestamp < before`
when `before` is present, `after < timestamp` when `after` is present,
their conjunction with both, and everything with neither. -/
theorem query_db_exact_strict_bounds (db : PgConnection) (tr : TimeRange)
    (h : db.readOk = true) :
    ∃ l, query_db tr db = some l ∧
      ∀ m, m ∈ l ↔ m ∈ db.rows ∧
        (∀ b, tr.before = some b → m.timestamp < b) ∧
        (∀ a, tr.after = some a → a < m.timestamp) := by
  unfold query_db
  rw [h]
  rcases tr with ⟨before, after⟩
  rcases before with _ | b <;> rcases after with _ | a <;>
    refine ⟨_, rfl, fun m => ?_⟩ <;>
    (simp [List.mem_filter]; try tauto)

/-- Witness for C1: the bounds `after = 1 < timestamp < 3 = before`
select exactly the middle sample row. -/
theorem query_db_exact_strict_bounds_witness :
    ∃ l, query_db { before := some 3, after := some 1 } db0 = some l ∧
      ∀ m, m ∈ l ↔ m ∈ db0.rows ∧
        (∀ b, (some 3 : Option Int) = some b → m.timestamp < b) ∧
        (∀ a, (some 1 : Option Int) = some a → a < m.timestamp) :=
  query_db_exact_strict_bounds db0 { before := some 3, after := some 1 } rfl

/-- C9: when storage-connection acquisition fails, every request —
whatever its method and path — is answered with a bare 500 response, no
handler runs, and the store is untouched. -/
theorem connect_failure_short_circuits (request : Request) :
    MicroService.call request none =
      ({ status := 500, contentLength := none, contentType := none, body := "" }, none) := by
  rfl

/-- C6: with a live connection, any (method, path) other than `POST /`
and `GET /` is answered with a 404 response with empty body and no
headers, and the store is untouched. -/
theorem unmatched_route_404 (request : Request) (db : PgConnection)
    (hpost : ¬(request.method = Method.post ∧ request.path = "/"))
    (hget : ¬(request.method = Method.get ∧ request.path = "/")) :
    MicroService.call request (some db) =
      ({ status := 404, contentLength := none, contentType := none, body := "" }, some db) := by
  show (if request.method = Method.post ∧ request.path = "/" then _
    else if request.method = Method.get ∧ request.path = "/" then _
    else _) = _
  rw [if_neg hpost, if_neg hget]

/-- Witness for C6: a request with an unroutable method on path `/`
receives the 404 response. -/
theorem unmatched_route_404_witness :
    MicroService.call
        { method := Method.other, path := "/", query := none, body := [] } (some db0) =
      ({ status := 404, contentLength := none, contentType := none, body := "" }, some db0) :=
  unmatched_route_404
    { method := Method.other, path := "/", query := none, body := [] } db0
    (by decide) (by decide)

/-- C7: a `GET /` request without a query string performs the query with
both bounds absent — the full, unfiltered load — and, when the read
succeeds, the rendered page body lists all stored rows. -/
theorem get_without_query_is_full_read (bd : List (String × String)) (db : PgConnection) :
    MicroService.call { method := Method.get, path := "/", query := none, body := bd }
        (some db) =
      (make_get_response (query_db { before := none, after := none } db), some db) ∧
    (db.readOk = true →
      (MicroService.call { method := Method.get, path := "/", query := none, body := bd }
          (some db)).1.body = render_html db.rows) := by
  constructor
  · rfl
  · intro hr
    show (make_get_response (query_db { before := none, after := none } db)).body = _
    unfold query_db
    rw [hr]
    rfl

/-- Witness for C7: on the concrete healthy store the no-query `GET /`
response body is the rendering of all three stored rows. -/
theorem get_without_query_is_full_read_witness :
    MicroService.call { method := Method.get, path := "/", query := none, body := [] }
        (some db0) =
      (make_get_response (query_db { before := none, after := none } db0), some db0) ∧
    (db0.readOk = true →
      (MicroService.call { method := Method.get, path := "/", query := none, body := [] }
          (some db0)).1.body = render_html db0.rows) :=
  get_without_query_is_full_read [] db0

/-- C2: a `POST /` whose form body has no `message` key is answered with
the missing-field error response — status 500, JSON body carrying
`Missing field message` — and the store is untouched: no write happens. -/
theorem post_missing_message_no_write (bd : List (String × String))
    (q : Option (List (String × String))) (db : PgConnection)
    (hm : hashGet bd "message" = none) :
    MicroService.call { method := Method.post, path := "/", query := q, body := bd }
        (some db) = (make_error_response "Missing field message", some db) ∧
    (make_error_response "Missing field message").status = 500 := by
  have hpf : parse_form bd = Except.error "Missing field message" := by
    unfold parse_form
    rw [hm]
  refine ⟨?_, rfl⟩
  simp [MicroService.call, connect_to_db, hpf, make_post_response]

/-- Witness for C2: a body holding only a `username` pair yields the
missing-field error response and leaves the store as it was. -/
theorem post_missing_message_no_write_witness :
    MicroService.call ⟨Method.post, "/", none, [("username", "bob")]⟩ (some db0) =
      (make_error_response "Missing field message", some db0) ∧
    (make_error_response "Missing field message").status = 500 :=
  post_missing_message_no_write [("username", "bob")] none db0 rfl

/-- C8: a `POST /` whose form body has a `message` pair but no
`username` pair produces an insert record with username `anonymous`,
and with a live write the persisted row carries that username. -/
theorem absent_username_defaults_anonymous (bd : List (String × String))
    (q : Option (List (String × String))) (db : PgConnection) (m : String)
    (hm : hashGet bd "message" = some m) (hu : hashGet bd "username" = none)
    (hw : db.writeOk = true) :
    parse_form bd = Except.ok { username := "anonymous", message := m } ∧
    MicroService.call { method := Method.post, path := "/", query := q, body := bd }
        (some db) =
      (make_post_response (Except.ok db.nextTs),
       some { db with
              rows := db.rows ++
                [{ username := "anonymous", timestamp := db.nextTs, message := m }],
              nextTs := db.nextTs + 1 }) := by
  have hpf : parse_form bd = Except.ok { username := "anonymous", message := m } := by
    unfold parse_form
    rw [hm, hu]
    rfl
  have hwd : write_to_db { username := "anonymous", message := m } db =
      Except.ok (db.nextTs,
        { db with
          rows := db.rows ++
            [{ username := "anonymous", timestamp := db.nextTs, message := m }],
          nextTs := db.nextTs + 1 }) := by
    unfold write_to_db
    rw [hw]
    rfl
  refine ⟨hpf, ?_⟩
  simp [MicroService.call, connect_to_db, hpf, hwd]

/-- Witness for C8: posting only `message=hi` to the healthy store
persists the row `anonymous / 4 / hi`. -/
theorem absent_username_defaults_anonymous_witness :
    parse_form [("message", "hi")] = Except.ok { username := "anonymous", message := "hi" } ∧
    MicroService.call ⟨Method.post, "/", none, [("message", "hi")]⟩ (some db0) =
      (make_post_response (Except.ok db0.nextTs),
       some { db0 with
              rows := db0.rows ++
                [{ username := "anonymous", timestamp := db0.nextTs, message := "hi" }],
              nextTs := db0.nextTs + 1 }) :=
  absent_username_defaults_anonymous [("message", "hi")] none db0 "hi" rfl rfl rfl

/-- C4 counterexample: the read-success response carries no Content-Type
header at all — in particular not `text/html` — refuting the claim that
every JSON or HTML response carries an appropriate Content-Type. -/
theorem get_response_lacks_content_type :
    (make_get_response (some [msgB])).contentType = none ∧
    ¬ (make_get_response (some [msgB])).contentType = some "text/html" := by
  exact ⟨rfl, by decide⟩

/-- C4 amended: every response builder sets Content-Length to the exact
byte length of its body; the JSON responses (write success and error)
set Content-Type `application/json`; the HTML read-success response
sets no Content-Type header. -/
theorem response_headers_amended :
    (∀ t : Int,
      (make_post_response (Except.ok t)).contentLength =
        some (make_post_response (Except.ok t)).body.utf8ByteSize ∧
      (make_post_response (Except.ok t)).contentType = some "application/json") ∧
    (∀ e : String,
      (make_error_response e).contentLength =
        some (make_error_response e).body.utf8ByteSize ∧
      (make_error_response e).contentType = some "application/json") ∧
    (∀ ms : List Message,
      (make_get_response (some ms)).contentLength =
        some (make_get_response (some ms)).body.utf8ByteSize ∧
      (make_get_response (some ms)).contentType = none) :=
  ⟨fun _ => ⟨rfl, rfl⟩, fun _ => ⟨rfl, rfl⟩, fun _ => ⟨rfl, rfl⟩⟩

/-- String append is associative, seen through the character data. -/
theorem str_append_assoc (a b c : String) : a ++ b ++ c = a ++ (b ++ c) := by
  apply String.ext
  rw [data_append_eq, data_append_eq, data_append_eq, data_append_eq]
  exact List.append_assoc a.data b.data c.data

/-- The empty string is a right identity of append. -/
theorem str_append_empty (s : String) : s ++ "" = s := by
  apply String.ext
  rw [data_append_eq]
  exact List.append_nil s.data

/-- The template's buffer fold over the messages appends exactly the
concatenated items to the buffer. -/
theorem foldl_items_eq (l : List Message) (buf : String) :
    l.foldl
      (fun buf m =>
        buf ++ "<li>" ++ escapeHtml m.username ++ " (" ++
          escapeHtml (toString m.timestamp) ++ "): " ++ escapeHtml m.message ++ "</li>")
      buf = buf ++ itemsHtml l := by
  induction l generalizing buf with
  | nil =>
    rw [List.foldl_nil]
    exact (str_append_empty buf).symm
  | cons m rest ih =>
    rw [List.foldl_cons, ih]
    show buf ++ "<li>" ++ escapeHtml m.username ++ " (" ++
        escapeHtml (toString m.timestamp) ++ "): " ++ escapeHtml m.message ++ "</li>" ++
        itemsHtml rest = buf ++ itemsHtml (m :: rest)
    rw [itemsHtml, messageItem]
    simp only [str_append_assoc]

/-- maud's single-character escaping never emits a raw `<`. -/
theorem escapeHtmlChar_no_lt (c : Char) : '<' ∉ (escapeHtmlChar c).data := by
  by_cases h1 : c = '&' <;> by_cases h2 : c = '<' <;> by_cases h3 : c = '>' <;>
    by_cases h4 : c = '"' <;>
    simp [escapeHtmlChar, h1, h2, h3, h4, String.singleton, eq_comm]

/-- maud's escaping never leaves a raw `<` in its output. -/
theorem escapeChars_no_lt (l : List Char) : '<' ∉ (escapeChars l).data := by
  induction l with
  | nil => intro h; cases h
  | cons c rest ih =>
    unfold escapeChars
    rw [data_append_eq]
    intro h
    rcases List.mem_append.mp h with h | h
    · exact escapeHtmlChar_no_lt c h
    · exact ih h

set_option maxRecDepth 4096 in
/-- C5: the rendered page is the head — title and UTF-8 charset meta —
followed by a body holding an unordered list with exactly one item per
message in the `username (timestamp): message` format; all spliced
content is escaped so no raw `<` survives, and in particular a username
`<b>x</b>` never appears as raw markup in the output. -/
theorem render_html_document (messages : List Message) :
    render_html messages =
      "<head><title>microservice</title><meta charset=\"utf-8\"></head><body><ul>" ++
        itemsHtml messages ++ "</ul></body>" ∧
    (∀ s : String, '<' ∉ (escapeHtml s).data) ∧
    ¬ ("<b>".data <:+:
        (render_html [{ username := "<b>x</b>", timestamp := 1, message := "hello" }]).data) := by
  refine ⟨?_, fun s => escapeChars_no_lt s.data, by decide⟩
  show (messages.foldl
      (fun buf m =>
        buf ++ "<li>" ++ escapeHtml m.username ++ " (" ++
          escapeHtml (toString m.timestamp) ++ "): " ++ escapeHtml m.message ++ "</li>")
      ("<head>" ++ "<title>" ++ "microservice" ++ "</title>" ++
        "<meta charset=\"utf-8\">" ++ "</head>" ++ "<body>" ++ "<ul>")) ++
      "</ul>" ++ "</body>" = _
  rw [foldl_items_eq]
  rw [show ("<head>" ++ "<title>" ++ "microservice" ++ "</title>" ++
        "<meta charset=\"utf-8\">" ++ "</head>" ++ "<body>" ++ "<ul>" : String) =
      "<head><title>microservice</title><meta charset=\"utf-8\"></head><body><ul>" from rfl]
  rw [str_append_assoc]
  rw [show ("</ul>" ++ "</body>" : String) = "</ul></body>" from rfl]

/-- A present `before` value that fails integer parsing makes
`parse_query` return early with the before-error message. -/
theorem parse_query_before_err (args : List (String × String)) (v e : String)
    (hv : hashGet args "before" = some v) (he : parseI64 v = Except.error e) :
    parse_query args = Except.error ("Error parsing \x27before: " ++ e) := by
  simp only [parse_query, hv, Option.map_some', he]

/-- With `before` absent, a present `after` value that fails integer
parsing makes `parse_query` return the after-error message. -/
theorem parse_query_after_err_none (args : List (String × String)) (v e : String)
    (hb : hashGet args "before" = none)
    (hv : hashGet args "after" = some v) (he : parseI64 v = Except.error e) :
    parse_query args = Except.error ("Error parsing \x27after\x27: " ++ e) := by
  simp only [parse_query, hb, Option.map_none', hv, Option.map_some', he]

/-- With `before` parsing fine, a present `after` value that fails
integer parsing makes `parse_query` return the after-error message. -/
theorem parse_query_after_err_ok (args : List (String × String)) (w : String) (n : Int)
    (v e : String)
    (hb : hashGet args "before" = some w) (hn : parseI64 w = Except.ok n)
    (hv : hashGet args "after" = some v) (he : parseI64 v = Except.error e) :
    parse_query args = Except.error ("Error parsing \x27after\x27: " ++ e) := by
  simp only [parse_query, hb, Option.map_some', hn, hv, he]

/-- An infix of a list stays an infix after appending on the right. -/
theorem infix_append_left {l₁ l₂ : List Char} (l₃ : List Char) (h : l₁ <:+: l₂) :
    l₁ <:+: l₂ ++ l₃ :=
  h.trans (l₂.prefix_append l₃).isInfix

set_option maxRecDepth 8192 in
/-- C3 counterexample: for the unparsable value `xyz` of `before`, the
error response body carries the field name and the generic parse-error
description, but the raw value `xyz` is NOT echoed anywhere in it. -/
theorem query_error_lacks_raw_value :
    (MicroService.call ⟨Method.get, "/", some [("before", "xyz")], []⟩ (some db0)).1 =
      make_error_response "Error parsing \x27before: invalid digit found in string" ∧
    ¬ ("xyz".data <:+:
        (MicroService.call ⟨Method.get, "/", some [("before", "xyz")], []⟩
            (some db0)).1.body.data) := by
  constructor
  · rfl
  · decide

/-- C3 amended: a `GET /` whose query has a `before` or `after` pair
with an unparsable integer value is answered — with the store untouched,
before any storage access — by a status-500 `application/json` error
response whose message is exactly the offending field's prefix followed
by the integer parser's error description: it names the offending field
together with that description (the raw value itself is not echoed; see
the counterexample). -/
theorem invalid_query_param_error_response (ps bd : List (String × String))
    (db : PgConnection)
    (hfail : (∃ v e, hashGet ps "before" = some v ∧ parseI64 v = Except.error e) ∨
             (∃ v e, hashGet ps "after" = some v ∧ parseI64 v = Except.error e)) :
    ∃ msg,
      MicroService.call ⟨Method.get, "/", some ps, bd⟩ (some db) =
        (make_error_response msg, some db) ∧
      (make_error_response msg).status = 500 ∧
      (make_error_response msg).contentType = some "application/json" ∧
      ((∃ v e, hashGet ps "before" = some v ∧ parseI64 v = Except.error e ∧
          msg = "Error parsing \x27before: " ++ e ∧ "before".data <:+: msg.data) ∨
       (∃ v e, hashGet ps "after" = some v ∧ parseI64 v = Except.error e ∧
          msg = "Error parsing \x27after\x27: " ++ e ∧ "after".data <:+: msg.data)) := by
  have hcall : ∀ m, parse_query ps = Except.error m →
      MicroService.call ⟨Method.get, "/", some ps, bd⟩ (some db) =
        (make_error_response m, some db) := by
    intro m hm
    simp [MicroService.call, connect_to_db, hm]
  have hBeforeNamed : ∀ e : String,
      "before".data <:+: ("Error parsing \x27before: " ++ e).data := by
    intro e
    rw [data_append_eq]
    exact infix_append_left _ (by decide)
  have hAfterNamed : ∀ e : String,
      "after".data <:+: ("Error parsing \x27after\x27: " ++ e).data := by
    intro e
    rw [data_append_eq]
    exact infix_append_left _ (by decide)
  rcases hB : hashGet ps "before" with _ | w
  · rcases hfail with ⟨v, e, hv, he⟩ | ⟨v, e, hv, he⟩
    · rw [hB] at hv
      cases hv
    · exact ⟨_, hcall _ (parse_query_after_err_none ps v e hB hv he), rfl, rfl,
        Or.inr ⟨v, e, hv, he, rfl, hAfterNamed e⟩⟩
  · rcases hpw : parseI64 w with er | n
    · exact ⟨_, hcall _ (parse_query_before_err ps w er hB hpw), rfl, rfl,
        Or.inl ⟨w, er, rfl, hpw, rfl, hBeforeNamed er⟩⟩
    · rcases hfail with ⟨v, e, hv, he⟩ | ⟨v, e, hv, he⟩
      · rw [hB] at hv
        injection hv with hv'
        rw [← hv', hpw] at he
        exact Except.noConfusion he
      · exact ⟨_, hcall _ (parse_query_after_err_ok ps w n v e hB hpw hv he), rfl, rfl,
          Or.inr ⟨v, e, hv, he, rfl, hAfterNamed e⟩⟩

/-- Witness for the amended C3: the unparsable `after=12a` yields the
500 JSON error response whose message is exactly the after-prefix
followed by the parser's description, with the store untouched. -/
theorem invalid_query_param_error_response_witness :
    ∃ msg,
      MicroService.call ⟨Method.get, "/", some [("after", "12a")], []⟩ (some db0) =
        (make_error_response msg, some db0) ∧
      (make_error_response msg).status = 500 ∧
      (make_error_response msg).contentType = some "application/json" ∧
      ((∃ v e, hashGet [("after", "12a")] "before" = some v ∧ parseI64 v = Except.error e ∧
          msg = "Error parsing \x27before: " ++ e ∧ "before".data <:+: msg.data) ∨
       (∃ v e, hashGet [("after", "12a")] "after" = some v ∧ parseI64 v = Except.error e ∧
          msg = "Error parsing \x27after\x27: " ++ e ∧ "after".data <:+: msg.data)) :=
  invalid_query_param_error_response [("after", "12a")] [] db0
    (Or.inr ⟨"12a", "invalid digit found in string", rfl, rfl⟩)

/-- C10: `parse_query` is total: on every input it returns either an
error (a present `before` or `after` value failing integer parsing,
through the early returns) or a `TimeRange`; and whenever the final Ok
construction is reached, every present parse result is Ok — so the two
unwraps never see an error value. -/
theorem parse_query_total_unwraps_safe (args : List (String × String)) :
    (∃ msg, parse_query args = Except.error msg) ∨
    (∃ tr, parse_query args = Except.ok tr ∧
      (∀ r, (hashGet args "before").map parseI64 = some r → ∃ n, r = Except.ok n) ∧
      (∀ r, (hashGet args "after").map parseI64 = some r → ∃ n, r = Except.ok n)) := by
  rcases hB : hashGet args "before" with _ | w
  · rcases hA : hashGet args "after" with _ | v
    · right
      refine ⟨⟨none, none⟩, ?_, ?_, ?_⟩
      · simp only [parse_query, hB, hA, Option.map_none']
      · intro r hr
        exact Option.noConfusion hr
      · intro r hr
        exact Option.noConfusion hr
    · rcases hpv : parseI64 v with e | n
      · left
        exact ⟨_, parse_query_after_err_none args v e hB hA hpv⟩
      · right
        refine ⟨⟨none, some n⟩, ?_, ?_, ?_⟩
        · simp only [parse_query, hB, Option.map_none', hA, Option.map_some', hpv, exceptUnwrap]
        · intro r hr
          exact Option.noConfusion hr
        · intro r hr
          rw [Option.map_some', hpv] at hr
          exact ⟨n, (Option.some.inj hr).symm⟩
  · rcases hpw : parseI64 w with e | n
    · left
      exact ⟨_, parse_query_before_err args w e hB hpw⟩
    · rcases hA : hashGet args "after" with _ | v
      · right
        refine ⟨⟨some n, none⟩, ?_, ?_, ?_⟩
        · simp only [parse_query, hB, Option.map_some', hpw, hA, Option.map_none', exceptUnwrap]
        · intro r hr
          rw [Option.map_some', hpw] at hr
          exact ⟨n, (Option.some.inj hr).symm⟩
        · intro r hr
          exact Option.noConfusion hr
      · rcases hpv : parseI64 v with e | m
        · left
          exact ⟨_, parse_query_after_err_ok args w n v e hB hpw hA hpv⟩
        · right
          refine ⟨⟨some n, some m⟩, ?_, ?_, ?_⟩
          · simp only [parse_query, hB, Option.map_some', hpw, hA, hpv, exceptUnwrap]
          · intro r hr
            rw [Option.map_some', hpw] at hr
            exact ⟨n, (Option.some.inj hr).symm⟩
          · intro r hr
            rw [Option.map_some', hpv] at hr
            exact ⟨m, (Option.some.inj hr).symm⟩
